import Mathlib

/-!
Verification of the thread/session state-persistence layer and connection
utilities of the learn-snowflake repository.

Shallow embedding conventions:
* `datetime.now()` is modelled as an explicit logical timestamp argument
  (`now : Int`); `timedelta(days=d)` subtracted from a timestamp is modelled
  as subtracting `d` in the same units, which preserves all comparisons.
* SQLite tables are modelled as lists of rows (multiset-with-order
  semantics); `INSERT OR REPLACE` removes the conflicting primary-key rows
  and appends the new row; a plain `INSERT` hitting a primary-key conflict
  raises, which (with the transaction rollback of the `with` block) is
  modelled as returning the failure sentinel with the state unchanged.
* Python dicts are modelled as association lists with insert-or-update
  semantics that preserve the position of an existing key (Python dicts are
  insertion-ordered and an update keeps the key's position).
* Python dynamic typing of the `user_id` values (strings everywhere in the
  repository, but an `int` arrives through the `/threads` endpoint bug) is
  modelled by the sum type `Val`.  Comparisons are by value; an integer
  never equals a string, matching both Python `==` and the fact that this
  repository only ever stores non-numeric textual user ids.
* Exogenous database failures (`sqlite3` raising) are modelled by a
  `dbFail : Bool` oracle argument on every SQLiteStateBackend method; the
  `try`/`except` wrapper of each method is the `if dbFail` branch.
* JSON serialization of checkpoints (`json.dumps`/`json.loads`) is a
  round-trip on the payloads used here and is modelled as the identity; the
  checkpoint payload type is an opaque parameter `α`.
-/

namespace LearnSnowflake

/-- A dynamically typed scalar as it flows through the Python code: either an
`int` or a `str`.  Used for `user_id` values. -/
inductive Val : Type
| int (n : Int) : Val
| str (s : String) : Val
deriving DecidableEq, Repr

/-- Python truthiness of a `Val`: `0` and `""` are falsy. -/
def valTruthy : Val → Bool
| .int n => decide (n ≠ 0)
| .str s => decide (s ≠ "")

/-- Python's `s[:n]` slicing on strings, character based. -/
def strTake (s : String) (n : Nat) : String := ⟨s.data.take n⟩

/-- The `ThreadMetadata` dataclass of `state_persistence.py` (fields in
source order; `tags=None` is normalised to `[]` by `__post_init__`). -/
structure ThreadMetadata where
  thread_id : String
  created_at : Int
  last_updated : Int
  user_id : Val
  title : String
  summary : String
  message_count : Nat
  tags : List String
deriving DecidableEq, Repr

/-- One row of the `{table}_metadata` SQLite table created by
`SQLiteStateBackend._init_database` (thread_id TEXT PRIMARY KEY, user_id,
created_at, last_updated, title, summary, message_count, tags). -/
structure MetaRow where
  thread_id : String
  user_id : Val
  created_at : Int
  last_updated : Int
  title : String
  summary : String
  message_count : Nat
  tags : List String
deriving DecidableEq, Repr

/-- One row of the `{table}_checkpoints` SQLite table
(PRIMARY KEY (thread_id, checkpoint_id)).  `checkpoint_id` is
`str(datetime.now().timestamp())`, modelled as the tick itself; the
`timestamp` column defaults to the current time. -/
structure CkptRow (α : Type) where
  thread_id : String
  user_id : Val
  checkpoint_id : Int
  timestamp : Int
  data : α
deriving DecidableEq, Repr

/-- The persistent state of a `SQLiteStateBackend`: the two tables. -/
structure SqliteState (α : Type) where
  meta : List MetaRow
  ckpts : List (CkptRow α)
deriving DecidableEq, Repr

/-- The state of an `InMemoryStateBackend`: `self.checkpoints` and
`self.metadata`, both Python dicts keyed by thread id. -/
structure MemState (α : Type) where
  checkpoints : List (String × α)
  metadata : List (String × ThreadMetadata)
deriving DecidableEq, Repr

/-- `d.get(k)` on a Python dict modelled as an association list. -/
def lookupD {β : Type} (l : List (String × β)) (k : String) : Option β :=
  (l.find? fun p => decide (p.1 = k)).map (·.2)

/-- `d[k] = v` on a Python dict: update in place if the key exists
(preserving its position), else append. -/
def dictInsert {β : Type} (l : List (String × β)) (k : String) (v : β) :
    List (String × β) :=
  if l.any fun p => decide (p.1 = k) then
    l.map fun p => if p.1 = k then (k, v) else p
  else l ++ [(k, v)]

/-- `d.pop(k, None)` on a Python dict: drop the key if present. -/
def popD {β : Type} (l : List (String × β)) (k : String) :
    List (String × β) :=
  l.filter fun p => !(decide (p.1 = k))

/-- Insert `x` into a list already sorted descending by `key`, after all
elements with a key at least as large (so that folding over a list from the
left yields the stable descending sort used by both `ORDER BY ... DESC`
(modelled with stable ties) and Python's stable `list.sort(reverse=True)`). -/
def insDesc {β : Type} (key : β → Int) (x : β) : List β → List β
| [] => [x]
| y :: ys => if key y < key x then x :: y :: ys else y :: insDesc key x ys

/-- Stable sort, descending by `key`. -/
def sortDesc {β : Type} (key : β → Int) (l : List β) : List β :=
  l.foldl (fun acc x => insDesc key x acc) []

/-- `SELECT ... FROM {table}_metadata WHERE thread_id = ?` (first row):
also the subquery used by `save_checkpoint`'s `COALESCE`. -/
def findMeta {α : Type} (s : SqliteState α) (tid : String) : Option MetaRow :=
  s.meta.find? fun r => decide (r.thread_id = tid)

/-- `SQLiteStateBackend.save_checkpoint` (state_persistence.py:113-138).
`INSERT OR REPLACE` on the metadata row (columns not in the column list get
their defaults: created_at/last_updated CURRENT_TIMESTAMP, title '',
summary '', tags '[]'), then plain `INSERT` of the checkpoint row, which on
a (thread_id, checkpoint_id) conflict raises and rolls the whole
transaction back, caught as `return False`. -/
def saveCheckpointS {α : Type} (s : SqliteState α) (tid : String) (ckpt : α)
    (uid : Val) (now : Int) (dbFail : Bool) : SqliteState α × Bool :=
  if dbFail then (s, false)
  else if s.ckpts.any fun r =>
      decide (r.thread_id = tid) && decide (r.checkpoint_id = now) then
    (s, false)
  else
    let newCount : Nat :=
      match findMeta s tid with
      | some r => r.message_count + 1
      | none => 1
    let meta1 := (s.meta.filter fun r => !(decide (r.thread_id = tid))) ++
      [{ thread_id := tid, user_id := uid, created_at := now,
         last_updated := now, title := "", summary := "",
         message_count := newCount, tags := [] }]
    let ck1 := s.ckpts ++
      [{ thread_id := tid, user_id := uid, checkpoint_id := now,
         timestamp := now, data := ckpt }]
    (⟨meta1, ck1⟩, true)

/-- `ORDER BY timestamp DESC LIMIT 1` followed by `fetchone()`: the row
with the largest timestamp (on equal timestamps SQLite's order is
unspecified; the model lets the later row win, and every theorem that
depends on the choice assumes distinct timestamps). -/
def latestCkpt {α : Type} : List (CkptRow α) → Option (CkptRow α) :=
  List.foldl
    (fun acc r =>
      match acc with
      | none => some r
      | some a => if a.timestamp ≤ r.timestamp then some r else some a)
    none

/-- `SQLiteStateBackend.load_checkpoint` (state_persistence.py:140-166). -/
def loadCheckpointS {α : Type} (s : SqliteState α) (tid : String) (uid : Val)
    (dbFail : Bool) : Option α :=
  if dbFail then none
  else
    let rows :=
      if valTruthy uid then
        s.ckpts.filter fun r =>
          decide (r.thread_id = tid) && decide (r.user_id = uid)
      else s.ckpts.filter fun r => decide (r.thread_id = tid)
    (latestCkpt rows).map (·.data)

/-- Conversion of a metadata row to a `ThreadMetadata` result, as in
`SQLiteStateBackend.list_threads` (`user_id=row[1] or ""`,
`title=row[4] or f"Thread {row[0][:8]}"`, `tags=json.loads(row[7])`). -/
def rowToMeta (r : MetaRow) : ThreadMetadata :=
  { thread_id := r.thread_id
    created_at := r.created_at
    last_updated := r.last_updated
    user_id := if valTruthy r.user_id then r.user_id else Val.str ""
    title := if r.title = "" then "Thread " ++ strTake r.thread_id 8 else r.title
    summary := r.summary
    message_count := r.message_count
    tags := r.tags }

/-- `SQLiteStateBackend.list_threads` (state_persistence.py:168-203). -/
def listThreadsS {α : Type} (s : SqliteState α) (uid : Val) (lim : Nat)
    (dbFail : Bool) : List ThreadMetadata :=
  if dbFail then []
  else
    let rows :=
      if valTruthy uid then s.meta.filter fun r => decide (r.user_id = uid)
      else s.meta
    (((sortDesc (fun r => r.last_updated) rows).take lim).map rowToMeta)

/-- `SQLiteStateBackend.delete_thread` (state_persistence.py:205-221). -/
def deleteThreadS {α : Type} (s : SqliteState α) (tid : String) (uid : Val)
    (dbFail : Bool) : SqliteState α × Bool :=
  if dbFail then (s, false)
  else if valTruthy uid then
    (⟨s.meta.filter fun r =>
        !(decide (r.thread_id = tid) && decide (r.user_id = uid)),
      s.ckpts.filter fun r =>
        !(decide (r.thread_id = tid) && decide (r.user_id = uid))⟩, true)
  else
    (⟨s.meta.filter fun r => !(decide (r.thread_id = tid)),
      s.ckpts.filter fun r => !(decide (r.thread_id = tid))⟩, true)

/-- The `WHERE last_updated < ? [AND user_id = ?]` selection of
`SQLiteStateBackend.cleanup_old_threads`. -/
def isOldRowB (cutoff : Int) (uid : Val) (r : MetaRow) : Bool :=
  if valTruthy uid then
    decide (r.last_updated < cutoff) && decide (r.user_id = uid)
  else decide (r.last_updated < cutoff)

/-- The user restriction a `delete_thread(thread_id, user_id)` call places
on the rows it removes: with a truthy `user_id` only rows stored under that
user are touched, otherwise all rows of the thread. -/
def uMatchB (uid u : Val) : Bool :=
  if valTruthy uid then decide (u = uid) else true

/-- `SQLiteStateBackend.cleanup_old_threads` (state_persistence.py:223-247):
select the old thread ids, then `delete_thread` each, returning the count. -/
def cleanupS {α : Type} (s : SqliteState α) (days : Int) (uid : Val)
    (now : Int) (dbFail : Bool) : SqliteState α × Int :=
  if dbFail then (s, 0)
  else
    let cutoff := now - days
    let olds := (s.meta.filter (isOldRowB cutoff uid)).map (·.thread_id)
    (olds.foldl (fun st t => (deleteThreadS st t uid false).1) s,
     (olds.length : Int))

/-- `InMemoryStateBackend.save_checkpoint` (state_persistence.py:256-274):
overwrite the per-thread checkpoint, create metadata on first save
(message_count left at its default 0) or bump it on later saves. -/
def saveCheckpointM {α : Type} (m : MemState α) (tid : String) (ckpt : α)
    (uid : Val) (now : Int) : MemState α × Bool :=
  let cks := dictInsert m.checkpoints tid ckpt
  match lookupD m.metadata tid with
  | none =>
    (⟨cks, dictInsert m.metadata tid
        { thread_id := tid, created_at := now, last_updated := now,
          user_id := uid, title := "Thread " ++ strTake tid 8, summary := "",
          message_count := 0, tags := [] }⟩, true)
  | some rec0 =>
    let rec1 :=
      { rec0 with
          last_updated := now
          message_count := rec0.message_count + 1
          user_id :=
            if valTruthy uid && !(valTruthy rec0.user_id) then uid
            else rec0.user_id }
    (⟨cks, dictInsert m.metadata tid rec1⟩, true)

/-- `InMemoryStateBackend.load_checkpoint` (state_persistence.py:276-283). -/
def loadCheckpointM {α : Type} (m : MemState α) (tid : String) (uid : Val) :
    Option α :=
  if valTruthy uid then
    match lookupD m.metadata tid with
    | some r =>
      if r.user_id ≠ uid then none else lookupD m.checkpoints tid
    | none => lookupD m.checkpoints tid
  else lookupD m.checkpoints tid

/-- `InMemoryStateBackend.list_threads` (state_persistence.py:285-293). -/
def listThreadsM {α : Type} (m : MemState α) (uid : Val) (lim : Nat) :
    List ThreadMetadata :=
  let vals := m.metadata.map (·.2)
  let threads :=
    if valTruthy uid then vals.filter fun r => decide (r.user_id = uid)
    else vals
  (sortDesc (fun r => r.last_updated) threads).take lim

/-- `InMemoryStateBackend.delete_thread` (state_persistence.py:295-305). -/
def deleteThreadM {α : Type} (m : MemState α) (tid : String) (uid : Val) :
    MemState α × Bool :=
  if valTruthy uid then
    match lookupD m.metadata tid with
    | some r =>
      if r.user_id ≠ uid then (m, false)
      else (⟨popD m.checkpoints tid, popD m.metadata tid⟩, true)
    | none => (⟨popD m.checkpoints tid, popD m.metadata tid⟩, true)
  else (⟨popD m.checkpoints tid, popD m.metadata tid⟩, true)

/-- The `meta.last_updated < cutoff_date [and meta.user_id == user_id]`
selection of `InMemoryStateBackend.cleanup_old_threads`. -/
def isOldMemB (cutoff : Int) (uid : Val) (r : ThreadMetadata) : Bool :=
  if valTruthy uid then
    decide (r.last_updated < cutoff) && decide (r.user_id = uid)
  else decide (r.last_updated < cutoff)

/-- `InMemoryStateBackend.cleanup_old_threads` (state_persistence.py:307-325). -/
def cleanupM {α : Type} (m : MemState α) (days : Int) (uid : Val)
    (now : Int) : MemState α × Int :=
  let cutoff := now - days
  let olds := (m.metadata.filter fun p => isOldMemB cutoff uid p.2).map (·.1)
  (olds.foldl (fun st t => (deleteThreadM st t uid).1) m,
   (olds.length : Int))

/-- States of a fresh `SQLiteStateBackend` (empty tables). -/
def emptySqlite (α : Type) : SqliteState α := ⟨[], []⟩

/-- State of a fresh `InMemoryStateBackend` (empty dicts). -/
def emptyMem (α : Type) : MemState α := ⟨[], []⟩

/-- Run a sequence of `save_checkpoint(thread_id, checkpoint)` calls (empty
`user_id`, one logical clock tick per call) against the SQLite backend,
conjoining all returned success booleans. -/
def runSavesS {α : Type} : SqliteState α → Int → List (String × α) →
    SqliteState α × Bool
| s, _, [] => (s, true)
| s, clock, (tid, d) :: ops =>
  let r := saveCheckpointS s tid d (Val.str "") clock false
  let rest := runSavesS r.1 (clock + 1) ops
  (rest.1, r.2 && rest.2)

/-- The same sequence of `save_checkpoint` calls against the in-memory
backend. -/
def runSavesM {α : Type} : MemState α → Int → List (String × α) →
    MemState α × Bool
| m, _, [] => (m, true)
| m, clock, (tid, d) :: ops =>
  let r := saveCheckpointM m tid d (Val.str "") clock
  let rest := runSavesM r.1 (clock + 1) ops
  (rest.1, r.2 && rest.2)

/-- Relation between the metadata of the two backends for one thread:
present in one iff present in the other, and the SQLite `message_count`
exceeds the in-memory one by exactly one. -/
def countRel {α : Type} (s : SqliteState α) (m : MemState α)
    (tid : String) : Prop :=
  match findMeta s tid, lookupD m.metadata tid with
  | some r, some p => r.message_count = p.message_count + 1
  | none, none => True
  | _, _ => False

/-- States of the SQLite backend reachable from a fresh backend by the
state-changing operations (`save_checkpoint`, `delete_thread`,
`cleanup_old_threads`), with arbitrary arguments, times and failures. -/
inductive ReachS {α : Type} : SqliteState α → Prop
| fresh : ReachS (emptySqlite α)
| save {s tid d uid now dbFail} : ReachS s →
    ReachS (saveCheckpointS s tid d uid now dbFail).1
| del {s tid uid dbFail} : ReachS s →
    ReachS (deleteThreadS s tid uid dbFail).1
| cleanup {s days uid now dbFail} : ReachS s →
    ReachS (cleanupS s days uid now dbFail).1

/-- States of the in-memory backend reachable from a fresh backend by the
state-changing operations. -/
inductive ReachM {α : Type} : MemState α → Prop
| fresh : ReachM (emptyMem α)
| save {m tid d uid now} : ReachM m →
    ReachM (saveCheckpointM m tid d uid now).1
| del {m tid uid} : ReachM m →
    ReachM (deleteThreadM m tid uid).1
| cleanup {m days uid now} : ReachM m →
    ReachM (cleanupM m days uid now).1

/-- The backend instance `ThreadStateManager._create_backend` selects
(SQLite for `DatabaseType.SQLITE`, otherwise the in-memory fallback). -/
inductive BackendState (α : Type) : Type
| sqlite (s : SqliteState α) : BackendState α
| mem (m : MemState α) : BackendState α
deriving DecidableEq

/-- `ThreadStateManager.get_threads`, which forwards to
`backend.list_threads(user_id, limit)`.  `dbFail` is the failure oracle of
the SQLite backend (the in-memory backend cannot fail). -/
def getThreadsB {α : Type} (b : BackendState α) (uid : Val) (lim : Nat)
    (dbFail : Bool) : List ThreadMetadata :=
  match b with
  | .sqlite s => listThreadsS s uid lim dbFail
  | .mem m => listThreadsM m uid lim

/-- `ThreadStateManager.delete_thread`, forwarding to
`backend.delete_thread(thread_id, user_id)`. -/
def deleteThreadB {α : Type} (b : BackendState α) (tid : String) (uid : Val)
    (dbFail : Bool) : BackendState α × Bool :=
  match b with
  | .sqlite s =>
    let r := deleteThreadS s tid uid dbFail
    (.sqlite r.1, r.2)
  | .mem m =>
    let r := deleteThreadM m tid uid
    (.mem r.1, r.2)

/-- The body of the `GET /threads` handler of `thread_api.py`
(lines 100-134): `state_manager.get_threads(limit)` binds the `limit`
query parameter (an `int`) to the positional `user_id` parameter, leaving
`limit` at its default `100`; then the optional `include_empty` filter. -/
def listThreadsHandler {α : Type} (b : BackendState α) (lim : Int)
    (includeEmpty : Bool) (dbFail : Bool) : List ThreadMetadata :=
  let threads := getThreadsB b (Val.int lim) 100 dbFail
  if includeEmpty then threads
  else threads.filter fun t => decide (0 < t.message_count)

/-- Outcome of a FastAPI handler: a JSON status or a raised HTTPException. -/
inductive ApiOutcome : Type
| ok (status : String) : ApiOutcome
| httpError (code : Nat) (detail : String) : ApiOutcome
deriving DecidableEq, Repr

/-- The body of the `DELETE /threads/{thread_id}` handler of
`thread_api.py` (lines 204-222): `state_manager.delete_thread(thread_id)`
(with the default empty `user_id`), 404 when it reports failure, else the
`"deleted"` status. -/
def deleteThreadHandler {α : Type} (b : BackendState α) (tid : String)
    (dbFail : Bool) : ApiOutcome × BackendState α :=
  let r := deleteThreadB b tid (Val.str "") dbFail
  if r.2 then (.ok "deleted", r.1)
  else (.httpError 404 ("Thread " ++ tid ++ " not found or could not be deleted"),
        r.1)

/-!  Account-format normalization, `SnowflakeConnection._normalize_account_format`
(lab05/python/snowflake_connection.py:31-47).  Account strings are modelled
as lists of characters; `str.endswith` and `str.replace` (which removes
every non-overlapping occurrence, scanning left to right) are embedded
directly. -/

/-- The suffix `".snowflakecomputing.com"` as a character list. -/
def sfx : List Char := ".snowflakecomputing.com".data

/-- Fuel-indexed left-to-right removal of every occurrence of `sfx`
(Python `account.replace('.snowflakecomputing.com', '')`); the fuel is the
length of the remaining input, consumed one character per step in the
no-match case and bounded by it in the match case. -/
def replaceSfxAux : Nat → List Char → List Char
| 0, l => l
| _ + 1, [] => []
| fuel + 1, c :: rest =>
  if (c :: rest).take sfx.length = sfx then
    replaceSfxAux fuel ((c :: rest).drop sfx.length)
  else c :: replaceSfxAux fuel rest

/-- `account.replace('.snowflakecomputing.com', '')`. -/
def replaceSfx (l : List Char) : List Char := replaceSfxAux l.length l

/-- `SnowflakeConnection._normalize_account_format`: `''` is returned
unchanged (falsy), otherwise the suffix check (`str.endswith`) guards the
replace-all. -/
def normalizeAccount (a : List Char) : List Char :=
  if a = [] then a
  else if sfx.length ≤ a.length ∧ a.drop (a.length - sfx.length) = sfx then
    replaceSfx a
  else a

/-- The account string contains `".snowflakecomputing.com"` as a substring. -/
def containsSfx (a : List Char) : Prop := ∃ x y, a = x ++ sfx ++ y

/-!  Checkpoint-saver schema, `SQLiteCheckpointSaver._setup_database`
(lab07c/python/sqlite_checkpointer.py:35-81), embedded as schema data. -/

/-- A `CREATE TABLE` statement: name, column names in order, and the
declared `PRIMARY KEY` column list. -/
structure TableDef where
  name : String
  columns : List String
  primaryKey : List String
deriving DecidableEq, Repr

/-- The `checkpoints` table created by `_setup_database`. -/
def checkpointsTableDef : TableDef :=
  { name := "checkpoints"
    columns := ["thread_id", "checkpoint_ns", "checkpoint_id", "user_id",
                "parent_checkpoint_id", "type", "checkpoint", "metadata",
                "created_at"]
    primaryKey := ["thread_id", "checkpoint_ns", "checkpoint_id"] }

/-- The `checkpoint_writes` table created by `_setup_database`. -/
def checkpointWritesTableDef : TableDef :=
  { name := "checkpoint_writes"
    columns := ["thread_id", "checkpoint_ns", "checkpoint_id", "task_id",
                "idx", "channel", "type", "value", "created_at"]
    primaryKey := ["thread_id", "checkpoint_ns", "checkpoint_id", "task_id",
                   "idx"] }

/-- The tables `_setup_database` creates, in order. -/
def setupDatabaseTables : List TableDef :=
  [checkpointsTableDef, checkpointWritesTableDef]

/-- The primary-key columns of one `checkpoint_writes` row. -/
structure WriteKey where
  thread_id : String
  checkpoint_ns : String
  checkpoint_id : String
  task_id : String
  idx : Int
deriving DecidableEq, Repr

/-- The projection of a `checkpoint_writes` key to the triple the spec
names. -/
def writeTriple (k : WriteKey) : String × String × String :=
  (k.thread_id, k.checkpoint_ns, k.checkpoint_id)

/-- A set of `checkpoint_writes` rows respects the declared PRIMARY KEY iff
all five-column keys are pairwise distinct. -/
def writesPkRespects (rows : List WriteKey) : Prop :=
  rows.Pairwise (· ≠ ·)

/-! ## Concrete states used by counterexamples and witnesses -/

/-- The SQLite state after one `save_checkpoint("t1", 5, user_id="u")` on a
fresh backend at time 0. -/
def exSqlite1 : SqliteState Nat :=
  (saveCheckpointS (emptySqlite Nat) "t1" 5 (Val.str "u") 0 false).1

/-- The in-memory state after the same single `save_checkpoint`. -/
def exMem1 : MemState Nat :=
  (saveCheckpointM (emptyMem Nat) "t1" 5 (Val.str "u") 0).1

/-- The SQLite state after a second `save_checkpoint("t1", 7, user_id="u")`
at time 1. -/
def exSqlite2 : SqliteState Nat :=
  (saveCheckpointS exSqlite1 "t1" 7 (Val.str "u") 1 false).1

/-- The in-memory state after a second `save_checkpoint("t1", 7)` (empty
user) at time 1. -/
def exMem2 : MemState Nat :=
  (saveCheckpointM exMem1 "t1" 7 (Val.str "") 1).1

/-- SQLite state holding one thread with checkpoints saved under two
different user ids: `save("t", 5, user_id="a")` at time 0 then
`save("t", 7, user_id="b")` at time 1. -/
def exSqliteTwoUsers : SqliteState Nat :=
  (saveCheckpointS
    (saveCheckpointS (emptySqlite Nat) "t" 5 (Val.str "a") 0 false).1
    "t" 7 (Val.str "b") 1 false).1

/-! ## General lemmas about the list and dict model -/

theorem mem_insDesc {β : Type} (key : β → Int) (x y : β) :
    ∀ l : List β, y ∈ insDesc key x l ↔ y = x ∨ y ∈ l := by
  intro l
  induction l with
  | nil => simp [insDesc]
  | cons a l ih =>
    simp only [insDesc]
    split
    · simp
    · simp only [List.mem_cons, ih]
      tauto

theorem mem_sortDesc_aux {β : Type} (key : β → Int) :
    ∀ (l acc : List β) (y : β),
      y ∈ l.foldl (fun a e => insDesc key e a) acc ↔ y ∈ acc ∨ y ∈ l := by
  intro l
  induction l with
  | nil => simp
  | cons a l ih =>
    intro acc y
    simp only [List.foldl_cons, ih, mem_insDesc, List.mem_cons]
    tauto

theorem mem_sortDesc {β : Type} (key : β → Int) (l : List β) (y : β) :
    y ∈ sortDesc key l ↔ y ∈ l := by
  simp [sortDesc, mem_sortDesc_aux]

theorem find?_filter_not {β : Type} (p : β → Bool) (l : List β) :
    (l.filter fun r => !(p r)).find? p = none := by
  rw [List.find?_eq_none]
  intro x hx
  have h2 := (List.mem_filter.mp hx).2
  simp only [Bool.not_eq_true'] at h2
  simp [h2]

theorem find?_filter_of_imp {β : Type} (p q : β → Bool)
    (h : ∀ a, p a = true → q a = true) :
    ∀ l : List β, (l.filter q).find? p = l.find? p := by
  intro l
  induction l with
  | nil => rfl
  | cons a l ih =>
    by_cases hq : q a = true
    · by_cases hp : p a = true
      · simp [List.filter_cons, hq, List.find?_cons, hp]
      · simp only [Bool.not_eq_true] at hp
        simp [List.filter_cons, hq, List.find?_cons, hp, ih]
    · have hp : p a = false := by
        cases hpa : p a
        · rfl
        · exact absurd (h a hpa) hq
      simp only [Bool.not_eq_true] at hq
      simp [List.filter_cons, hq, List.find?_cons, hp, ih]

theorem find?_map_update_self {β : Type} (k : String) (v : β) :
    ∀ l : List (String × β), (l.any fun p => decide (p.1 = k)) = true →
      (l.map fun p => if p.1 = k then (k, v) else p).find?
        (fun p => decide (p.1 = k)) = some (k, v) := by
  intro l
  induction l with
  | nil => simp
  | cons a l ih =>
    intro hany
    by_cases hak : a.1 = k
    · simp [List.find?_cons, hak]
    · have hany' : (l.any fun p => decide (p.1 = k)) = true := by
        simpa [List.any_cons, hak] using hany
      simp only [List.map_cons, if_neg hak]
      rw [List.find?_cons, decide_eq_false hak]
      exact ih hany'

theorem find?_map_update_ne {β : Type} (k k' : String) (v : β)
    (h : k' ≠ k) : ∀ l : List (String × β),
      (l.map fun p => if p.1 = k then (k, v) else p).find?
        (fun p => decide (p.1 = k')) = l.find? (fun p => decide (p.1 = k')) := by
  intro l
  induction l with
  | nil => rfl
  | cons a l ih =>
    by_cases hak : a.1 = k
    · have h1 : ¬ (k = k') := fun hc => h hc.symm
      have h2 : ¬ (a.1 = k') := fun hc => h (hc ▸ hak)
      simp only [List.map_cons, if_pos hak]
      rw [List.find?_cons, List.find?_cons, decide_eq_false h1,
        decide_eq_false h2]
      exact ih
    · simp only [List.map_cons, if_neg hak]
      rw [List.find?_cons, List.find?_cons]
      cases hd : decide (a.1 = k')
      · exact ih
      · rfl

theorem lookupD_dictInsert_self {β : Type} (l : List (String × β))
    (k : String) (v : β) : lookupD (dictInsert l k v) k = some v := by
  unfold dictInsert
  split
  · next hany =>
    unfold lookupD
    rw [find?_map_update_self k v l hany]
    rfl
  · next hany =>
    unfold lookupD
    rw [List.find?_append]
    have h1 : (l.find? fun p => decide (p.1 = k)) = none := by
      rw [List.find?_eq_none]
      intro x hx
      simp only [List.any_eq_true, not_exists, not_and] at hany
      exact hany x hx
    rw [h1]
    simp [List.find?_cons]

theorem lookupD_dictInsert_ne {β : Type} (l : List (String × β))
    (k k' : String) (v : β) (h : k' ≠ k) :
    lookupD (dictInsert l k v) k' = lookupD l k' := by
  unfold dictInsert
  split
  · unfold lookupD
    rw [find?_map_update_ne k k' v h l]
  · unfold lookupD
    rw [List.find?_append]
    have h1 : (List.find? (fun p => decide (p.1 = k')) [(k, v)]) = none := by
      rw [List.find?_cons, decide_eq_false (fun hc : k = k' => h hc.symm)]
      rfl
    rw [h1]
    cases l.find? fun p => decide (p.1 = k') <;> rfl

theorem latestCkpt_cases {α : Type} :
    ∀ (l : List (CkptRow α)) (acc : Option (CkptRow α)),
      (List.foldl
        (fun acc r =>
          match acc with
          | none => some r
          | some a => if a.timestamp ≤ r.timestamp then some r else some a)
        acc l = acc) ∨
      (∃ a ∈ l, List.foldl
        (fun acc r =>
          match acc with
          | none => some r
          | some a => if a.timestamp ≤ r.timestamp then some r else some a)
        acc l = some a) := by
  intro l
  induction l with
  | nil => intro acc; left; rfl
  | cons r l ih =>
    intro acc
    rcases ih (match acc with
      | none => some r
      | some a => if a.timestamp ≤ r.timestamp then some r else some a) with h | ⟨a, ha, h⟩
    · rw [List.foldl_cons]
      cases acc with
      | none => right; exact ⟨r, List.mem_cons_self r l, h⟩
      | some a =>
        by_cases hle : a.timestamp ≤ r.timestamp
        · right
          refine ⟨r, List.mem_cons_self r l, ?_⟩
          simpa [hle] using h
        · left
          simpa [hle] using h
    · right
      exact ⟨a, List.mem_cons_of_mem r ha, by simpa using h⟩

theorem latestCkpt_append_fresh {α : Type} (l : List (CkptRow α))
    (x : CkptRow α) (h : ∀ r ∈ l, r.timestamp < x.timestamp) :
    latestCkpt (l ++ [x]) = some x := by
  unfold latestCkpt
  rw [List.foldl_append]
  rcases latestCkpt_cases l none with hc | ⟨a, ha, hc⟩
  · rw [hc]
    rfl
  · rw [hc]
    simp only [List.foldl_cons, List.foldl_nil]
    show (if a.timestamp ≤ x.timestamp then some x else some a) = some x
    rw [if_pos (le_of_lt (h a ha))]

/-! ## Lemmas about list_threads -/

theorem length_listThreadsS_le {α : Type} (s : SqliteState α) (uid : Val)
    (lim : Nat) (dbFail : Bool) :
    (listThreadsS s uid lim dbFail).length ≤ lim := by
  cases dbFail with
  | true => simp [listThreadsS]
  | false =>
    simp only [listThreadsS, Bool.false_eq_true, if_false, List.length_map,
      List.length_take]
    omega

theorem length_listThreadsM_le {α : Type} (m : MemState α) (uid : Val)
    (lim : Nat) : (listThreadsM m uid lim).length ≤ lim := by
  simp only [listThreadsM, List.length_take]
  omega

theorem mem_listThreadsS_user {α : Type} (s : SqliteState α) (uid : Val)
    (lim : Nat) (dbFail : Bool) (hu : valTruthy uid = true) :
    ∀ t ∈ listThreadsS s uid lim dbFail, t.user_id = uid := by
  intro t ht
  cases dbFail with
  | true => simp [listThreadsS] at ht
  | false =>
    simp only [listThreadsS, Bool.false_eq_true, if_false, hu, if_true] at ht
    obtain ⟨r, hr, hrt⟩ := List.mem_map.mp ht
    have hr2 := (List.take_sublist _ _).subset hr
    rw [mem_sortDesc] at hr2
    have hru := (List.mem_filter.mp hr2).2
    rw [decide_eq_true_eq] at hru
    subst hrt
    simp [rowToMeta, hru, hu]

theorem mem_listThreadsM_user {α : Type} (m : MemState α) (uid : Val)
    (lim : Nat) (hu : valTruthy uid = true) :
    ∀ t ∈ listThreadsM m uid lim, t.user_id = uid := by
  intro t ht
  simp only [listThreadsM, hu, if_true] at ht
  have h2 := (List.take_sublist _ _).subset ht
  rw [mem_sortDesc] at h2
  have h3 := (List.mem_filter.mp h2).2
  rwa [decide_eq_true_eq] at h3

/-! ## Claim theorems -/

/-- C5: every `SQLiteStateBackend` method wraps its body in a
`try`/`except` that turns any database exception into a logged sentinel
(the `with`-transaction is rolled back, so the state is unchanged):
`save_checkpoint` returns `False`, `load_checkpoint` returns `None`,
`list_threads` returns `[]`, `delete_thread` returns `False` and
`cleanup_old_threads` returns `0`; none of the methods propagates the
exception (in the embedding they are total functions). -/
theorem c5_sqlite_error_sentinels {α : Type} (s : SqliteState α)
    (tid : String) (d : α) (uid : Val) (now days : Int) (lim : Nat) :
    saveCheckpointS s tid d uid now true = (s, false) ∧
    loadCheckpointS s tid uid true = none ∧
    listThreadsS s uid lim true = [] ∧
    deleteThreadS s tid uid true = (s, false) ∧
    cleanupS s days uid now true = (s, 0) :=
  ⟨rfl, rfl, rfl, rfl, rfl⟩

/-- C8 counterexample: it is not the case that every table created by
`SQLiteCheckpointSaver._setup_database` has
`(thread_id, checkpoint_ns, checkpoint_id)` as its primary key — the
`checkpoint_writes` table declares the five-column key
`(thread_id, checkpoint_ns, checkpoint_id, task_id, idx)`. -/
theorem c8_counterexample :
    ¬ (setupDatabaseTables.map (·.name) = ["checkpoints", "checkpoint_writes"] ∧
       ∀ t ∈ setupDatabaseTables,
         t.primaryKey = ["thread_id", "checkpoint_ns", "checkpoint_id"]) := by
  decide

/-- C8 (amended): `_setup_database` creates exactly the two tables
`checkpoints` and `checkpoint_writes`; the `checkpoints` table is keyed by
the triple `(thread_id, checkpoint_ns, checkpoint_id)`, while
`checkpoint_writes` is keyed by that triple extended with
`(task_id, idx)` — so two distinct `checkpoint_writes` rows may share the
triple while respecting the declared primary key. -/
theorem c8_setup_database_schema :
    setupDatabaseTables.map (·.name) = ["checkpoints", "checkpoint_writes"] ∧
    checkpointsTableDef.primaryKey =
      ["thread_id", "checkpoint_ns", "checkpoint_id"] ∧
    checkpointWritesTableDef.primaryKey =
      ["thread_id", "checkpoint_ns", "checkpoint_id", "task_id", "idx"] ∧
    ∃ r1 r2 : WriteKey, r1 ≠ r2 ∧ writeTriple r1 = writeTriple r2 ∧
      writesPkRespects [r1, r2] := by
  refine ⟨rfl, rfl, rfl,
    ⟨⟨"t", "", "c", "task", 0⟩, ⟨"t", "", "c", "task", 1⟩, ?_, rfl, ?_⟩⟩
  · decide
  · unfold writesPkRespects
    decide

/-- C9: for every value `N` of the `limit` query parameter (validated to
`1 ≤ N ≤ 1000` by FastAPI), the `GET /threads` handler calls
`get_threads` with `N` bound to the `user_id` parameter and the limit left
at its default `100`; consequently it returns at most 100 threads, every
returned thread's user id is the integer `N`, and no thread stored with
the default empty user id is ever returned, for either backend and any
stored state. -/
theorem c9_limit_misbound_to_user_id {α : Type} (b : BackendState α)
    (N : Int) (inc dbFail : Bool) (h : 1 ≤ N) :
    listThreadsHandler b N inc dbFail =
      (if inc then getThreadsB b (Val.int N) 100 dbFail
       else (getThreadsB b (Val.int N) 100 dbFail).filter
         fun t => decide (0 < t.message_count)) ∧
    (listThreadsHandler b N inc dbFail).length ≤ 100 ∧
    ∀ t ∈ listThreadsHandler b N inc dbFail,
      t.user_id = Val.int N ∧ t.user_id ≠ Val.str "" := by
  have hu : valTruthy (Val.int N) = true := by
    simp only [valTruthy, decide_eq_true_eq]
    omega
  have hlen : (getThreadsB b (Val.int N) 100 dbFail).length ≤ 100 := by
    cases b with
    | sqlite s => exact length_listThreadsS_le s _ 100 dbFail
    | mem m => exact length_listThreadsM_le m _ 100
  have hmem : ∀ t ∈ getThreadsB b (Val.int N) 100 dbFail,
      t.user_id = Val.int N := by
    cases b with
    | sqlite s => exact mem_listThreadsS_user s _ 100 dbFail hu
    | mem m => exact mem_listThreadsM_user m _ 100 hu
  refine ⟨rfl, ?_, ?_⟩
  · simp only [listThreadsHandler]
    split
    · exact hlen
    · exact le_trans (List.length_filter_le _ _) hlen
  · intro t ht
    have htg : t ∈ getThreadsB b (Val.int N) 100 dbFail := by
      simp only [listThreadsHandler] at ht
      split at ht
      · exact ht
      · exact (List.mem_filter.mp ht).1
    have h1 := hmem t htg
    refine ⟨h1, ?_⟩
    rw [h1]
    intro hc
    exact Val.noConfusion hc

/-- C9 witness: the theorem applied to a concrete in-memory backend state
and `limit = 5`. -/
theorem c9_limit_misbound_witness :
    (1 ≤ (5 : Int)) ∧
    (listThreadsHandler (BackendState.mem exMem1) 5 true false).length ≤ 100 :=
  ⟨by decide,
   (c9_limit_misbound_to_user_id (BackendState.mem exMem1) 5 true false
     (by decide)).2.1⟩

/-- C10: deleting a thread id that is absent from the store reports
success in both backends (`delete_thread` with the default empty user id
returns `True`), so the `DELETE /threads/{thread_id}` handler answers with
status `"deleted"` instead of a 404 for a thread that was never created. -/
theorem c10_delete_missing_reports_deleted {α : Type} (s : SqliteState α)
    (m : MemState α) (tid : String)
    (hs : ∀ r ∈ s.meta, r.thread_id ≠ tid)
    (hm : lookupD m.metadata tid = none) :
    (deleteThreadS s tid (Val.str "") false).2 = true ∧
    (deleteThreadM m tid (Val.str "")).2 = true ∧
    (deleteThreadHandler (BackendState.sqlite s) tid false).1 =
      ApiOutcome.ok "deleted" ∧
    (deleteThreadHandler (BackendState.mem m) tid false).1 =
      ApiOutcome.ok "deleted" := by
  have hv : valTruthy (Val.str "") = false := by decide
  refine ⟨?_, ?_, ?_, ?_⟩ <;>
    simp [deleteThreadS, deleteThreadM, deleteThreadHandler, deleteThreadB, hv]

/-- C10 witness: the theorem applied to concrete states that do not
contain the thread id `"ghost"`. -/
theorem c10_delete_missing_witness :
    (deleteThreadHandler (BackendState.sqlite exSqlite1) "ghost" false).1 =
      ApiOutcome.ok "deleted" :=
  (c10_delete_missing_reports_deleted exSqlite1 exMem1 "ghost"
    (by decide) (by decide)).2.2.1

/-- C1 counterexample: one identical `save_checkpoint("t1", 5, user_id="u")`
call on the two fresh backends succeeds in both, but the observable thread
state already differs: `list_threads` reports `message_count = 1` from the
SQLite backend and `message_count = 0` from the in-memory backend. -/
theorem c1_counterexample :
    (saveCheckpointS (emptySqlite Nat) "t1" 5 (Val.str "u") 0 false).2 = true ∧
    (saveCheckpointM (emptyMem Nat) "t1" 5 (Val.str "u") 0).2 = true ∧
    (listThreadsS exSqlite1 (Val.str "") 100 false).map (·.message_count)
      = [1] ∧
    (listThreadsM exMem1 (Val.str "") 100).map (·.message_count) = [0] ∧
    listThreadsS exSqlite1 (Val.str "") 100 false ≠
      listThreadsM exMem1 (Val.str "") 100 := by
  decide

/-- C2 counterexample: in the in-memory backend a second successful
`save_checkpoint` on the same thread does not preserve the previously
saved checkpoint — the dict entry is overwritten, so after saving `5` and
then `7` for thread `"t1"` only `7` remains stored. -/
theorem c2_counterexample :
    (saveCheckpointM exMem1 "t1" 7 (Val.str "") 1).2 = true ∧
    exMem2.checkpoints = [("t1", 7)] ∧
    ("t1", 5) ∉ exMem2.checkpoints := by
  decide

/-- C3 counterexample: in the SQLite backend, saving a checkpoint for a
thread that already has a metadata record does not leave `created_at`
unchanged — the `INSERT OR REPLACE` rewrites the row and `created_at`
falls back to the current timestamp (after a save at time 0 and another at
time 1 the stored `created_at` is 1, not 0). -/
theorem c3_counterexample :
    (saveCheckpointS exSqlite1 "t1" 7 (Val.str "u") 1 false).2 = true ∧
    (findMeta exSqlite1 "t1").map (·.created_at) = some 0 ∧
    (findMeta exSqlite2 "t1").map (·.created_at) = some 1 := by
  decide

/-! ## Lemmas about account-format normalization -/

theorem containsSfx_iff (a : List Char) :
    containsSfx a ↔ ∃ i, i < a.length ∧ (a.drop i).take sfx.length = sfx := by
  have hpos : 0 < sfx.length := by decide
  constructor
  · rintro ⟨x, y, rfl⟩
    refine ⟨x.length, ?_, ?_⟩
    · simp only [List.length_append]
      omega
    · rw [List.append_assoc, List.drop_left,
        List.take_append_eq_append_take, Nat.sub_self, List.take_zero,
        List.append_nil, List.take_length]
  · rintro ⟨i, hi, htake⟩
    refine ⟨a.take i, (a.drop i).drop sfx.length, ?_⟩
    conv_lhs => rw [← List.take_append_drop i a]
    rw [List.append_assoc]
    congr 1
    conv_lhs => rw [← List.take_append_drop sfx.length (a.drop i)]
    rw [htake]

theorem sfx_no_border :
    ∀ k, k < sfx.length → 0 < k →
      sfx.drop k ≠ sfx.take (sfx.length - k) := by
  decide

theorem no_occ_of_not_contains (a : List Char) (h : ¬ containsSfx a) :
    ∀ i, i < a.length → (a.drop i ++ sfx).take sfx.length ≠ sfx := by
  rw [containsSfx_iff] at h
  push_neg at h
  intro i hi heq
  by_cases hk : sfx.length ≤ (a.drop i).length
  · rw [List.take_append_eq_append_take, Nat.sub_eq_zero_of_le hk,
      List.take_zero, List.append_nil] at heq
    exact h i hi heq
  · push_neg at hk
    rw [List.take_append_eq_append_take,
      List.take_of_length_le (le_of_lt hk)] at heq
    have hdrop := congrArg (List.drop (a.drop i).length) heq
    rw [List.drop_left] at hdrop
    have hkpos : 0 < (a.drop i).length := by
      rw [List.length_drop]
      omega
    exact sfx_no_border (a.drop i).length hk hkpos hdrop.symm

theorem replaceSfx_append_of_no_occ :
    ∀ a : List Char,
      (∀ i, i < a.length → (a.drop i ++ sfx).take sfx.length ≠ sfx) →
      replaceSfx (a ++ sfx) = a := by
  intro a
  induction a with
  | nil =>
    intro _
    show replaceSfx sfx = []
    decide
  | cons c a' ih =>
    intro h
    show replaceSfxAux ((a' ++ sfx).length + 1) (c :: (a' ++ sfx)) = c :: a'
    have h0 : ¬ ((c :: (a' ++ sfx)).take sfx.length = sfx) := by
      have := h 0 (by simp)
      simpa using this
    simp only [replaceSfxAux]
    rw [if_neg h0]
    congr 1
    exact ih fun i hi => by
      have := h (i + 1) (by simpa using Nat.succ_lt_succ hi)
      simpa using this

theorem not_endsWith_of_not_contains (a : List Char) (h : ¬ containsSfx a) :
    ¬ (sfx.length ≤ a.length ∧ a.drop (a.length - sfx.length) = sfx) := by
  have hpos : 0 < sfx.length := by decide
  rintro ⟨hle, hdrop⟩
  apply h
  rw [containsSfx_iff]
  refine ⟨a.length - sfx.length, by omega, ?_⟩
  rw [hdrop, List.take_length]

/-- C7 counterexample: `_normalize_account_format` is not idempotent.
Python's `str.replace` removes every occurrence of
`".snowflakecomputing.com"`, and on the account string below removing the
two earlier occurrences re-creates the suffix, so one normalization
returns `".snowflakecomputing.com"` and a second normalization returns
`""`. -/
theorem c7_counterexample :
    normalizeAccount (normalizeAccount
      ".snowflake.snowflakecomputing.comcomputing.com.snowflakecomputing.com".data) ≠
    normalizeAccount
      ".snowflake.snowflakecomputing.comcomputing.com.snowflakecomputing.com".data := by
  decide

/-- C7 (amended): on every account string that does not contain
`".snowflakecomputing.com"` as a substring, normalization returns the
string unchanged, and normalizing the string with the suffix appended
strips exactly the suffix — so the full-domain and short formats of such
an account normalize to the same short identifier (and normalization is
idempotent on these inputs); idempotence fails on strings containing
internal occurrences of the suffix (see the counterexample). -/
theorem c7_normalize_round_trip (a : List Char) (h : ¬ containsSfx a) :
    normalizeAccount a = a ∧ normalizeAccount (a ++ sfx) = a := by
  constructor
  · unfold normalizeAccount
    split
    · rfl
    · rw [if_neg (not_endsWith_of_not_contains a h)]
  · unfold normalizeAccount
    have hne : a ++ sfx ≠ [] := by
      intro hc
      have : sfx = [] := (List.append_eq_nil.mp hc).2
      exact absurd this (by decide)
    rw [if_neg hne]
    have hcond : sfx.length ≤ (a ++ sfx).length ∧
        (a ++ sfx).drop ((a ++ sfx).length - sfx.length) = sfx := by
      constructor
      · rw [List.length_append]
        omega
      · have hl : (a ++ sfx).length - sfx.length = a.length := by
          rw [List.length_append]
          omega
        rw [hl]
        exact List.drop_left a sfx
    rw [if_pos hcond]
    exact replaceSfx_append_of_no_occ a (no_occ_of_not_contains a h)

/-- C7 witness: the round-trip theorem applied to the concrete account
`"hwa72902.east-us-2.azure"` from the source comments. -/
theorem c7_normalize_witness :
    normalizeAccount "hwa72902.east-us-2.azure".data =
      "hwa72902.east-us-2.azure".data ∧
    normalizeAccount ("hwa72902.east-us-2.azure".data ++ sfx) =
      "hwa72902.east-us-2.azure".data :=
  c7_normalize_round_trip "hwa72902.east-us-2.azure".data
    (fun hc => absurd ((containsSfx_iff _).mp hc) (by decide))

/-- C6 counterexample: with a non-empty `user_id`, the SQLite
`cleanup_old_threads` deletes an old thread's metadata but not all of its
checkpoints: for a thread saved first under user `"a"` and then under
user `"b"`, `cleanup_old_threads(30, "b")` counts and deletes the thread
(metadata becomes empty) yet the checkpoint saved under `"a"` survives. -/
theorem c6_counterexample :
    (cleanupS exSqliteTwoUsers 30 (Val.str "b") 100 false).2 = 1 ∧
    (cleanupS exSqliteTwoUsers 30 (Val.str "b") 100 false).1.meta = [] ∧
    (cleanupS exSqliteTwoUsers 30 (Val.str "b") 100 false).1.ckpts.map
      (·.user_id) = [Val.str "a"] := by
  decide

/-! ## Save-checkpoint characterizations (C2, C3) -/

theorem save_no_conflict {α : Type} (s : SqliteState α) (tid : String)
    (now : Int) (hfresh : ∀ r ∈ s.ckpts, r.checkpoint_id ≠ now) :
    (s.ckpts.any fun r =>
      decide (r.thread_id = tid) && decide (r.checkpoint_id = now)) = false := by
  rw [List.any_eq_false]
  intro r hr
  simp only [Bool.and_eq_true, decide_eq_true_eq, not_and]
  intro _ hc
  exact hfresh r hr hc

theorem saveCheckpointS_ckpts {α : Type} (s : SqliteState α) (tid : String)
    (d : α) (uid : Val) (now : Int)
    (hfresh : ∀ r ∈ s.ckpts, r.checkpoint_id ≠ now) :
    (saveCheckpointS s tid d uid now false).1.ckpts =
      s.ckpts ++ [⟨tid, uid, now, now, d⟩] ∧
    (saveCheckpointS s tid d uid now false).2 = true := by
  have hnoc := save_no_conflict s tid now hfresh
  constructor <;>
    simp only [saveCheckpointS, Bool.false_eq_true, if_false, hnoc]

theorem saveCheckpointS_meta {α : Type} (s : SqliteState α) (tid : String)
    (d : α) (uid : Val) (now : Int) (r : MetaRow)
    (hS : findMeta s tid = some r)
    (hfresh : ∀ row ∈ s.ckpts, row.checkpoint_id ≠ now) :
    (saveCheckpointS s tid d uid now false).1.meta =
      (s.meta.filter fun r' => !(decide (r'.thread_id = tid))) ++
        [{ thread_id := tid, user_id := uid, created_at := now,
           last_updated := now, title := "", summary := "",
           message_count := r.message_count + 1, tags := [] }] := by
  have hnoc := save_no_conflict s tid now hfresh
  simp only [saveCheckpointS, Bool.false_eq_true, if_false, hnoc, hS]

theorem findMeta_filter_append (s : List MetaRow) (tid : String)
    (x : MetaRow) (hx : x.thread_id = tid) :
    ((s.filter fun r' => !(decide (r'.thread_id = tid))) ++ [x]).find?
      (fun r => decide (r.thread_id = tid)) = some x := by
  rw [List.find?_append, find?_filter_not, Option.none_or, List.find?_cons,
    decide_eq_true hx]

theorem saveCheckpointM_checkpoints {α : Type} (m : MemState α)
    (tid : String) (d : α) (uid : Val) (now : Int) :
    (saveCheckpointM m tid d uid now).1.checkpoints =
      dictInsert m.checkpoints tid d ∧
    (saveCheckpointM m tid d uid now).2 = true := by
  unfold saveCheckpointM
  cases lookupD m.metadata tid <;> exact ⟨rfl, rfl⟩

/-- C2 (amended): a successful `save_checkpoint` appends in the SQLite
backend: it leaves every previously saved checkpoint row (of every
thread) in place, adds exactly one new row, and `load_checkpoint` then
returns the new checkpoint as the latest for that thread.  The in-memory
backend instead retains only the latest checkpoint per thread: the saved
value replaces the thread's single stored checkpoint, while the
checkpoints of all other threads are unchanged. -/
theorem c2_append_vs_overwrite {α : Type} (s : SqliteState α)
    (m : MemState α) (tid : String) (d : α) (uid : Val) (now : Int)
    (hfresh : ∀ r ∈ s.ckpts, r.checkpoint_id ≠ now)
    (hts : ∀ r ∈ s.ckpts, r.timestamp < now) :
    (saveCheckpointS s tid d uid now false).2 = true ∧
    (saveCheckpointS s tid d uid now false).1.ckpts =
      s.ckpts ++ [⟨tid, uid, now, now, d⟩] ∧
    loadCheckpointS (saveCheckpointS s tid d uid now false).1 tid
      (Val.str "") false = some d ∧
    (saveCheckpointM m tid d uid now).2 = true ∧
    lookupD (saveCheckpointM m tid d uid now).1.checkpoints tid = some d ∧
    (∀ t', t' ≠ tid →
      lookupD (saveCheckpointM m tid d uid now).1.checkpoints t' =
        lookupD m.checkpoints t') := by
  obtain ⟨hck, hok⟩ := saveCheckpointS_ckpts s tid d uid now hfresh
  obtain ⟨hmc, hmok⟩ := saveCheckpointM_checkpoints m tid d uid now
  have hvf : valTruthy (Val.str "") = false := by decide
  refine ⟨hok, hck, ?_, hmok, ?_, ?_⟩
  · simp only [loadCheckpointS, Bool.false_eq_true, if_false, hvf, hck,
      List.filter_append]
    have hxfil : List.filter (fun r => decide (r.thread_id = tid))
        [(⟨tid, uid, now, now, d⟩ : CkptRow α)] = [⟨tid, uid, now, now, d⟩] := by
      simp
    rw [hxfil, latestCkpt_append_fresh _ _
      (fun r hr => hts r ((List.filter_sublist _).subset hr))]
    rfl
  · rw [hmc]
    exact lookupD_dictInsert_self m.checkpoints tid d
  · intro t' ht'
    rw [hmc]
    exact lookupD_dictInsert_ne m.checkpoints tid t' d ht'

/-- C2 witness: after a fresh-timestamp save on the concrete state
`exSqlite1`, `load_checkpoint` returns the new checkpoint. -/
theorem c2_append_witness :
    loadCheckpointS (saveCheckpointS exSqlite1 "t1" 9 (Val.str "u") 5
      false).1 "t1" (Val.str "") false = some 9 :=
  (c2_append_vs_overwrite exSqlite1 exMem1 "t1" 9 (Val.str "u") 5
    (by decide) (by decide)).2.2.1

/-- C3 (amended): for a thread that already has a metadata record,
`save_checkpoint` in the in-memory backend changes only `last_updated`,
`message_count` and (when the record had no owner) `user_id`, preserving
`title`, `summary`, `tags` and `created_at`; the SQLite backend instead
rewrites the whole row with `INSERT OR REPLACE`, so `created_at` is reset
to the save time and `title`, `summary` and `tags` to their column
defaults (while `user_id`, `last_updated` and `message_count` are updated
as the claim says). -/
theorem c3_metadata_update {α : Type} (s : SqliteState α) (m : MemState α)
    (tid : String) (d : α) (uid : Val) (now : Int) (r : MetaRow)
    (p : ThreadMetadata)
    (hS : findMeta s tid = some r)
    (hfresh : ∀ row ∈ s.ckpts, row.checkpoint_id ≠ now)
    (hM : lookupD m.metadata tid = some p) :
    findMeta (saveCheckpointS s tid d uid now false).1 tid =
      some { thread_id := tid, user_id := uid, created_at := now,
             last_updated := now, title := "", summary := "",
             message_count := r.message_count + 1, tags := [] } ∧
    lookupD (saveCheckpointM m tid d uid now).1.metadata tid =
      some { p with
        last_updated := now
        message_count := p.message_count + 1
        user_id := if valTruthy uid && !(valTruthy p.user_id) then uid
                   else p.user_id } := by
  constructor
  · unfold findMeta
    rw [saveCheckpointS_meta s tid d uid now r hS hfresh]
    exact findMeta_filter_append s.meta tid _ rfl
  · have hmm : (saveCheckpointM m tid d uid now).1.metadata =
        dictInsert m.metadata tid
          { p with
            last_updated := now
            message_count := p.message_count + 1
            user_id := if valTruthy uid && !(valTruthy p.user_id) then uid
                       else p.user_id } := by
      simp only [saveCheckpointM, hM]
    rw [hmm]
    exact lookupD_dictInsert_self _ _ _

/-- C3 witness: the theorem applied to the concrete one-thread states
after one save; a second save at time 5 yields the rewritten SQLite row
with `created_at = 5` and `message_count = 2`. -/
theorem c3_metadata_witness :
    findMeta (saveCheckpointS exSqlite1 "t1" 9 (Val.str "u") 5 false).1 "t1" =
      some ⟨"t1", Val.str "u", 5, 5, "", "", 2, []⟩ :=
  (c3_metadata_update exSqlite1 exMem1 "t1" 9 (Val.str "u") 5
    ⟨"t1", Val.str "u", 0, 0, "", "", 1, []⟩
    ⟨"t1", 0, 0, Val.str "u", "Thread t1", "", 0, []⟩
    (by decide) (by decide) (by decide)).1

/-! ## Key-uniqueness invariant (C4) -/

theorem nodupS_save {α : Type} (s : SqliteState α) (tid : String) (d : α)
    (uid : Val) (now : Int) (dbFail : Bool)
    (h : (s.meta.map (·.thread_id)).Nodup) :
    ((saveCheckpointS s tid d uid now dbFail).1.meta.map
      (·.thread_id)).Nodup := by
  unfold saveCheckpointS
  split
  · exact h
  split
  · exact h
  · simp only [List.map_append, List.map_cons, List.map_nil]
    rw [List.nodup_append]
    refine ⟨((List.filter_sublist s.meta).map _).nodup h, by simp, ?_⟩
    rw [List.disjoint_singleton]
    intro hc
    obtain ⟨rr, hrr, hkey⟩ := List.mem_map.mp hc
    have h2 := (List.mem_filter.mp hrr).2
    rw [Bool.not_eq_eq_eq_not, Bool.not_true, decide_eq_false_iff_not] at h2
    exact h2 hkey

theorem nodupS_delete {α : Type} (s : SqliteState α) (tid : String)
    (uid : Val) (dbFail : Bool) (h : (s.meta.map (·.thread_id)).Nodup) :
    ((deleteThreadS s tid uid dbFail).1.meta.map (·.thread_id)).Nodup := by
  unfold deleteThreadS
  split
  · exact h
  split <;> exact ((List.filter_sublist s.meta).map _).nodup h

theorem nodupS_foldDelete {α : Type} (uid : Val) :
    ∀ (tids : List String) (s : SqliteState α),
      (s.meta.map (·.thread_id)).Nodup →
      ((tids.foldl (fun st t => (deleteThreadS st t uid false).1) s).meta.map
        (·.thread_id)).Nodup := by
  intro tids
  induction tids with
  | nil => intro s h; exact h
  | cons t ts ih =>
    intro s h
    exact ih _ (nodupS_delete s t uid false h)

theorem nodupS_cleanup {α : Type} (s : SqliteState α) (days : Int)
    (uid : Val) (now : Int) (dbFail : Bool)
    (h : (s.meta.map (·.thread_id)).Nodup) :
    ((cleanupS s days uid now dbFail).1.meta.map (·.thread_id)).Nodup := by
  unfold cleanupS
  split
  · exact h
  · exact nodupS_foldDelete uid _ s h

theorem nodup_keys_dictInsert {β : Type} (l : List (String × β))
    (k : String) (v : β) (h : (l.map (·.1)).Nodup) :
    ((dictInsert l k v).map (·.1)).Nodup := by
  unfold dictInsert
  split
  · have heq : ((l.map fun p => if p.1 = k then (k, v) else p).map (·.1)) =
        l.map (·.1) := by
      rw [List.map_map]
      apply List.map_congr_left
      intro p _
      by_cases hp : p.1 = k
      · simp [hp]
      · simp [hp]
    rw [heq]
    exact h
  · next hany =>
    rw [List.map_append]
    rw [List.nodup_append]
    refine ⟨h, by simp, ?_⟩
    simp only [List.map_cons, List.map_nil, List.disjoint_singleton]
    intro hc
    obtain ⟨p, hp, hpk⟩ := List.mem_map.mp hc
    rw [List.any_eq_true] at hany
    exact hany ⟨p, hp, by simp [hpk]⟩

theorem nodupM_save {α : Type} (m : MemState α) (tid : String) (d : α)
    (uid : Val) (now : Int) (h : (m.metadata.map (·.1)).Nodup) :
    ((saveCheckpointM m tid d uid now).1.metadata.map (·.1)).Nodup := by
  unfold saveCheckpointM
  cases lookupD m.metadata tid <;> exact nodup_keys_dictInsert _ _ _ h

theorem nodupM_delete {α : Type} (m : MemState α) (tid : String)
    (uid : Val) (h : (m.metadata.map (·.1)).Nodup) :
    ((deleteThreadM m tid uid).1.metadata.map (·.1)).Nodup := by
  unfold deleteThreadM
  have hpop : ((popD m.metadata tid).map (·.1)).Nodup :=
    ((List.filter_sublist m.metadata).map _).nodup h
  split
  · split
    · split
      · exact h
      · exact hpop
    · exact hpop
  · exact hpop

theorem nodupM_foldDelete {α : Type} (uid : Val) :
    ∀ (tids : List String) (m : MemState α),
      (m.metadata.map (·.1)).Nodup →
      ((tids.foldl (fun st t => (deleteThreadM st t uid).1) m).metadata.map
        (·.1)).Nodup := by
  intro tids
  induction tids with
  | nil => intro m h; exact h
  | cons t ts ih =>
    intro m h
    exact ih _ (nodupM_delete m t uid h)

theorem nodupM_cleanup {α : Type} (m : MemState α) (days : Int) (uid : Val)
    (now : Int) (h : (m.metadata.map (·.1)).Nodup) :
    ((cleanupM m days uid now).1.metadata.map (·.1)).Nodup := by
  unfold cleanupM
  exact nodupM_foldDelete uid _ m h

/-- C4: one metadata row per thread id.  In every state reachable from a
fresh backend by `save_checkpoint`, `delete_thread` and
`cleanup_old_threads` (with any arguments, times and failure outcomes),
each thread id occurs at most once in the metadata store — in the SQLite
backend (whose `INSERT OR REPLACE` honours the `thread_id` primary key)
and in the in-memory backend (a dict keyed by thread id). -/
theorem c4_one_metadata_row_per_thread {α : Type} :
    (∀ s : SqliteState α, ReachS s → (s.meta.map (·.thread_id)).Nodup) ∧
    (∀ m : MemState α, ReachM m → (m.metadata.map (·.1)).Nodup) := by
  constructor
  · intro s hs
    induction hs with
    | fresh => simp [emptySqlite]
    | save _ ih => exact nodupS_save _ _ _ _ _ _ ih
    | del _ ih => exact nodupS_delete _ _ _ _ ih
    | cleanup _ ih => exact nodupS_cleanup _ _ _ _ _ ih
  · intro m hm
    induction hm with
    | fresh => simp [emptyMem]
    | save _ ih => exact nodupM_save _ _ _ _ _ ih
    | del _ ih => exact nodupM_delete _ _ _ ih
    | cleanup _ ih => exact nodupM_cleanup _ _ _ _ ih

/-- C4 witness: the invariant evaluated on the concrete reachable state
after one save on a fresh SQLite backend. -/
theorem c4_one_metadata_row_witness :
    ((saveCheckpointS (emptySqlite Nat) "t1" 5 (Val.str "u") 0
      false).1.meta.map (·.thread_id)).Nodup :=
  (c4_one_metadata_row_per_thread (α := Nat)).1 _ (ReachS.save ReachS.fresh)

/-! ## Cleanup characterization (C6) -/

theorem not_and_or_split :
    ∀ x y u : Bool, (!(y && u) && !(x && u)) = !((x || y) && u) := by
  decide

theorem not_or_split : ∀ x y : Bool, (!y && !x) = !(x || y) := by
  decide

theorem deleteThreadS_eq {α : Type} (s : SqliteState α) (tid : String)
    (uid : Val) :
    deleteThreadS s tid uid false =
      (⟨s.meta.filter fun r =>
          !(decide (r.thread_id = tid) && uMatchB uid r.user_id),
        s.ckpts.filter fun r =>
          !(decide (r.thread_id = tid) && uMatchB uid r.user_id)⟩, true) := by
  by_cases hu : valTruthy uid = true
  · simp [deleteThreadS, uMatchB, hu]
  · rw [Bool.not_eq_true] at hu
    simp [deleteThreadS, uMatchB, hu]

theorem beq_key_decide (a t : String) : (a == t) = decide (a = t) := by
  by_cases h : a = t <;> simp [h]

theorem foldDeleteS_eq {α : Type} (uid : Val) :
    ∀ (tids : List String) (s : SqliteState α),
      tids.foldl (fun st t => (deleteThreadS st t uid false).1) s =
        ⟨s.meta.filter fun r =>
            !(tids.contains r.thread_id && uMatchB uid r.user_id),
          s.ckpts.filter fun r =>
            !(tids.contains r.thread_id && uMatchB uid r.user_id)⟩ := by
  intro tids
  induction tids with
  | nil =>
    intro s
    simp [List.contains_nil]
  | cons t ts ih =>
    intro s
    rw [List.foldl_cons, deleteThreadS_eq, ih]
    dsimp only
    refine congrArg₂ SqliteState.mk ?_ ?_ <;>
    · rw [List.filter_filter]
      apply List.filter_congr
      intro r _
      rw [List.contains_cons, beq_key_decide]
      exact not_and_or_split (decide (r.thread_id = t))
        (ts.contains r.thread_id) _

theorem cleanupS_eq {α : Type} (s : SqliteState α) (days : Int) (uid : Val)
    (now : Int) (hnd : (s.meta.map (·.thread_id)).Nodup) :
    cleanupS s days uid now false =
      (⟨s.meta.filter fun r => !(isOldRowB (now - days) uid r),
        s.ckpts.filter fun c =>
          !(((s.meta.filter (isOldRowB (now - days) uid)).map
              (·.thread_id)).contains c.thread_id && uMatchB uid c.user_id)⟩,
       ((s.meta.filter (isOldRowB (now - days) uid)).length : Int)) := by
  unfold cleanupS
  simp only [Bool.false_eq_true, if_false]
  rw [foldDeleteS_eq]
  refine congrArg₂ Prod.mk (congrArg₂ SqliteState.mk ?_ rfl) ?_
  · apply List.filter_congr
    intro r hr
    congr 1
    cases hold : isOldRowB (now - days) uid r with
    | false =>
      cases hc : ((s.meta.filter (isOldRowB (now - days) uid)).map
          (·.thread_id)).contains r.thread_id with
      | false => simp
      | true =>
        exfalso
        have hmem : r.thread_id ∈
            (s.meta.filter (isOldRowB (now - days) uid)).map (·.thread_id) :=
          List.elem_iff.mp hc
        obtain ⟨r', hr', hkey⟩ := List.mem_map.mp hmem
        have hr'm := (List.mem_filter.mp hr').1
        have hr'old := (List.mem_filter.mp hr').2
        have heq : r' = r := List.inj_on_of_nodup_map hnd hr'm hr hkey
        rw [heq, hold] at hr'old
        exact Bool.false_ne_true hr'old
    | true =>
      have hcont : ((s.meta.filter (isOldRowB (now - days) uid)).map
          (·.thread_id)).contains r.thread_id = true :=
        List.elem_iff.mpr
          (List.mem_map.mpr ⟨r, List.mem_filter.mpr ⟨hr, hold⟩, rfl⟩)
      have humatch : uMatchB uid r.user_id = true := by
        unfold isOldRowB at hold
        unfold uMatchB
        by_cases hu : valTruthy uid = true
        · rw [if_pos hu] at hold ⊢
          simp only [Bool.and_eq_true] at hold
          exact hold.2
        · rw [Bool.not_eq_true] at hu
          simp [hu]
      rw [hcont, humatch]
      rfl
  · rw [List.length_map]

theorem lookupD_popD_ne {β : Type} (l : List (String × β)) (k k' : String)
    (h : k' ≠ k) : lookupD (popD l k) k' = lookupD l k' := by
  unfold lookupD popD
  congr 1
  exact find?_filter_of_imp _ _
    (fun a ha => by
      have ha' : a.1 = k' := by simpa using ha
      simp [ha', h]) l

theorem lookupD_eq_of_mem_nodup {β : Type} :
    ∀ (l : List (String × β)) (k : String) (v : β),
      (l.map (·.1)).Nodup → (k, v) ∈ l → lookupD l k = some v := by
  intro l
  induction l with
  | nil => intro k v _ hmem; cases hmem
  | cons a l ih =>
    intro k v hnd hmem
    rw [List.map_cons, List.nodup_cons] at hnd
    rcases List.mem_cons.mp hmem with h | h
    · rw [← h]
      unfold lookupD
      rw [List.find?_cons, decide_eq_true rfl]
      rfl
    · have hne : a.1 ≠ k := by
        intro hc
        apply hnd.1
        rw [hc]
        exact List.mem_map.mpr ⟨(k, v), h, rfl⟩
      unfold lookupD
      rw [List.find?_cons, decide_eq_false hne]
      exact ih k v hnd.2 h

theorem deleteThreadM_eq {α : Type} (m : MemState α) (tid : String)
    (uid : Val)
    (hown : ∀ r, lookupD m.metadata tid = some r →
      valTruthy uid = true → r.user_id = uid) :
    (deleteThreadM m tid uid).1 =
      ⟨popD m.checkpoints tid, popD m.metadata tid⟩ := by
  unfold deleteThreadM
  by_cases hu : valTruthy uid = true
  · rw [if_pos hu]
    cases hl : lookupD m.metadata tid with
    | none => rfl
    | some r =>
      simp [hown r hl hu]
  · rw [Bool.not_eq_true] at hu
    simp [hu]

theorem foldDeleteM_eq {α : Type} (uid : Val) :
    ∀ (tids : List String) (m : MemState α), tids.Nodup →
      (∀ t ∈ tids, ∀ r, lookupD m.metadata t = some r →
        valTruthy uid = true → r.user_id = uid) →
      tids.foldl (fun st t => (deleteThreadM st t uid).1) m =
        ⟨m.checkpoints.filter fun p => !(tids.contains p.1),
         m.metadata.filter fun p => !(tids.contains p.1)⟩ := by
  intro tids
  induction tids with
  | nil =>
    intro m _ _
    simp [List.contains_nil]
  | cons t ts ih =>
    intro m hnd hown
    rw [List.nodup_cons] at hnd
    rw [List.foldl_cons,
      deleteThreadM_eq m t uid (hown t (List.mem_cons_self t ts))]
    rw [ih ⟨popD m.checkpoints t, popD m.metadata t⟩ hnd.2 ?_]
    · dsimp only
      refine congrArg₂ MemState.mk ?_ ?_ <;>
      · unfold popD
        rw [List.filter_filter]
        apply List.filter_congr
        intro p _
        rw [List.contains_cons, beq_key_decide]
        exact not_or_split (decide (p.1 = t)) (ts.contains p.1)
    · intro t' ht' r hl hu
      have hne : t' ≠ t := fun hc => hnd.1 (hc ▸ ht')
      rw [lookupD_popD_ne m.metadata t t' hne] at hl
      exact hown t' (List.mem_cons_of_mem t ht') r hl hu

theorem cleanupM_eq {α : Type} (m : MemState α) (days : Int) (uid : Val)
    (now : Int) (hnd : (m.metadata.map (·.1)).Nodup) :
    cleanupM m days uid now =
      (⟨m.checkpoints.filter fun p =>
          !(((m.metadata.filter fun q => isOldMemB (now - days) uid q.2).map
            (·.1)).contains p.1),
        m.metadata.filter fun p => !(isOldMemB (now - days) uid p.2)⟩,
       ((m.metadata.filter fun p => isOldMemB (now - days) uid p.2).length :
         Int)) := by
  have hondnod : ((m.metadata.filter fun p =>
      isOldMemB (now - days) uid p.2).map (·.1)).Nodup :=
    ((List.filter_sublist m.metadata).map _).nodup hnd
  have hown : ∀ t ∈ (m.metadata.filter fun p =>
      isOldMemB (now - days) uid p.2).map (·.1),
      ∀ r, lookupD m.metadata t = some r →
        valTruthy uid = true → r.user_id = uid := by
    intro t ht r hl hu
    obtain ⟨p, hp, hpk⟩ := List.mem_map.mp ht
    have hpmem := (List.mem_filter.mp hp).1
    have hpold := (List.mem_filter.mp hp).2
    have hlp : lookupD m.metadata t = some p.2 := by
      apply lookupD_eq_of_mem_nodup m.metadata t p.2 hnd
      rw [← hpk]
      exact hpmem
    rw [hl] at hlp
    have hrp : r = p.2 := Option.some.inj hlp
    rw [hrp]
    unfold isOldMemB at hpold
    rw [if_pos hu] at hpold
    simp only [Bool.and_eq_true] at hpold
    exact of_decide_eq_true hpold.2
  unfold cleanupM
  dsimp only
  rw [foldDeleteM_eq uid _ m hondnod hown]
  refine congrArg₂ Prod.mk (congrArg₂ MemState.mk rfl ?_) ?_
  · apply List.filter_congr
    intro p hp
    congr 1
    cases hold : isOldMemB (now - days) uid p.2 with
    | false =>
      cases hc : ((m.metadata.filter fun q =>
          isOldMemB (now - days) uid q.2).map (·.1)).contains p.1 with
      | false => rfl
      | true =>
        exfalso
        have hmem := List.elem_iff.mp hc
        obtain ⟨p', hp', hpk⟩ := List.mem_map.mp hmem
        have hp'm := (List.mem_filter.mp hp').1
        have hp'old := (List.mem_filter.mp hp').2
        have heq : p' = p := List.inj_on_of_nodup_map hnd hp'm hp hpk
        rw [heq, hold] at hp'old
        exact Bool.false_ne_true hp'old
    | true =>
      exact List.elem_iff.mpr
        (List.mem_map.mpr ⟨p, List.mem_filter.mpr ⟨hp, hold⟩, rfl⟩)
  · rw [List.length_map]

/-- C6 (amended): `cleanup_old_threads(days, user_id)` counts and removes
exactly the threads whose `last_updated` is strictly earlier than
`now - days` (restricted to the given owner when `user_id` is non-empty):
their metadata records are removed and every other thread's metadata is
untouched, in both backends.  The in-memory backend also removes each old
thread's (single) stored checkpoint; the SQLite backend removes an old
thread's checkpoint rows only when they match the `delete_thread` user
restriction, so with a non-empty `user_id` checkpoint rows saved under a
different user survive (see the counterexample). -/
theorem c6_cleanup_characterization {α : Type} (s : SqliteState α)
    (m : MemState α) (days : Int) (uid : Val) (now : Int)
    (hndS : (s.meta.map (·.thread_id)).Nodup)
    (hndM : (m.metadata.map (·.1)).Nodup) :
    (cleanupS s days uid now false).2 =
      ((s.meta.filter (isOldRowB (now - days) uid)).length : Int) ∧
    (cleanupS s days uid now false).1.meta =
      s.meta.filter (fun r => !(isOldRowB (now - days) uid r)) ∧
    (cleanupS s days uid now false).1.ckpts =
      s.ckpts.filter (fun c =>
        !(((s.meta.filter (isOldRowB (now - days) uid)).map
            (·.thread_id)).contains c.thread_id && uMatchB uid c.user_id)) ∧
    (cleanupM m days uid now).2 =
      ((m.metadata.filter fun p => isOldMemB (now - days) uid p.2).length :
        Int) ∧
    (cleanupM m days uid now).1.metadata =
      m.metadata.filter (fun p => !(isOldMemB (now - days) uid p.2)) ∧
    (cleanupM m days uid now).1.checkpoints =
      m.checkpoints.filter (fun p =>
        !(((m.metadata.filter fun q => isOldMemB (now - days) uid q.2).map
          (·.1)).contains p.1)) := by
  rw [cleanupS_eq s days uid now hndS, cleanupM_eq m days uid now hndM]
  exact ⟨rfl, rfl, rfl, rfl, rfl, rfl⟩

/-- C6 witness: the characterization applied to the concrete two-user
state; the cleanup count equals the number of old matching metadata
rows. -/
theorem c6_cleanup_witness :
    (cleanupS exSqliteTwoUsers 30 (Val.str "b") 100 false).2 =
      ((exSqliteTwoUsers.meta.filter
        (isOldRowB (100 - 30) (Val.str "b"))).length : Int) :=
  (c6_cleanup_characterization exSqliteTwoUsers (emptyMem Nat) 30
    (Val.str "b") 100 (by decide) (by decide)).1

/-! ## Backend simulation for save/load sequences (C1) -/

theorem loadS_save_self {α : Type} (s : SqliteState α) (tid : String)
    (d : α) (uid : Val) (now : Int)
    (hfresh : ∀ r ∈ s.ckpts, r.checkpoint_id ≠ now)
    (hts : ∀ r ∈ s.ckpts, r.timestamp < now) :
    loadCheckpointS (saveCheckpointS s tid d uid now false).1 tid
      (Val.str "") false = some d := by
  obtain ⟨hck, _⟩ := saveCheckpointS_ckpts s tid d uid now hfresh
  have hvf : valTruthy (Val.str "") = false := by decide
  simp only [loadCheckpointS, Bool.false_eq_true, if_false, hvf, hck,
    List.filter_append]
  have hxfil : List.filter (fun r => decide (r.thread_id = tid))
      [(⟨tid, uid, now, now, d⟩ : CkptRow α)] = [⟨tid, uid, now, now, d⟩] := by
    simp
  rw [hxfil, latestCkpt_append_fresh _ _
    (fun r hr => hts r ((List.filter_sublist _).subset hr))]
  rfl

theorem loadS_save_other {α : Type} (s : SqliteState α) (tid : String)
    (d : α) (uid : Val) (now : Int) (t : String)
    (hfresh : ∀ r ∈ s.ckpts, r.checkpoint_id ≠ now) (hne : t ≠ tid) :
    loadCheckpointS (saveCheckpointS s tid d uid now false).1 t
      (Val.str "") false = loadCheckpointS s t (Val.str "") false := by
  obtain ⟨hck, _⟩ := saveCheckpointS_ckpts s tid d uid now hfresh
  have hvf : valTruthy (Val.str "") = false := by decide
  simp only [loadCheckpointS, Bool.false_eq_true, if_false, hvf, hck,
    List.filter_append]
  have hnt : ¬ (tid = t) := fun h => hne h.symm
  have hxfil : List.filter (fun r => decide (r.thread_id = t))
      [(⟨tid, uid, now, now, d⟩ : CkptRow α)] = [] := by
    simp [hnt]
  rw [hxfil, List.append_nil]

theorem saveCheckpointS_meta_none {α : Type} (s : SqliteState α)
    (tid : String) (d : α) (uid : Val) (now : Int)
    (hS : findMeta s tid = none)
    (hfresh : ∀ row ∈ s.ckpts, row.checkpoint_id ≠ now) :
    (saveCheckpointS s tid d uid now false).1.meta =
      (s.meta.filter fun r' => !(decide (r'.thread_id = tid))) ++
        [{ thread_id := tid, user_id := uid, created_at := now,
           last_updated := now, title := "", summary := "",
           message_count := 1, tags := [] }] := by
  have hnoc := save_no_conflict s tid now hfresh
  simp only [saveCheckpointS, Bool.false_eq_true, if_false, hnoc, hS]

theorem findMeta_filter_append_other (l : List MetaRow) (tid t : String)
    (x : MetaRow) (hx : x.thread_id = tid) (hne : t ≠ tid) :
    ((l.filter fun r' => !(decide (r'.thread_id = tid))) ++ [x]).find?
      (fun r => decide (r.thread_id = t)) =
      l.find? (fun r => decide (r.thread_id = t)) := by
  rw [List.find?_append]
  rw [find?_filter_of_imp _ _ (fun a ha => by
    rw [decide_eq_true_eq] at ha
    simp [ha, hne]) l]
  have h2 : List.find? (fun r => decide (r.thread_id = t)) [x] = none := by
    rw [List.find?_cons,
      decide_eq_false (by rw [hx]; exact fun h => hne h.symm)]
    rfl
  rw [h2, Option.or_none]

theorem findMeta_save_other {α : Type} (s : SqliteState α) (tid t : String)
    (d : α) (uid : Val) (now : Int)
    (hfresh : ∀ row ∈ s.ckpts, row.checkpoint_id ≠ now) (hne : t ≠ tid) :
    findMeta (saveCheckpointS s tid d uid now false).1 t = findMeta s t := by
  cases hS : findMeta s tid with
  | some r0 =>
    unfold findMeta
    rw [saveCheckpointS_meta s tid d uid now r0 hS hfresh]
    exact findMeta_filter_append_other s.meta tid t _ rfl hne
  | none =>
    unfold findMeta
    rw [saveCheckpointS_meta_none s tid d uid now hS hfresh]
    exact findMeta_filter_append_other s.meta tid t _ rfl hne

theorem saveCheckpointM_meta_none {α : Type} (m : MemState α)
    (tid : String) (d : α) (uid : Val) (now : Int)
    (hM : lookupD m.metadata tid = none) :
    (saveCheckpointM m tid d uid now).1.metadata =
      dictInsert m.metadata tid
        { thread_id := tid, created_at := now, last_updated := now,
          user_id := uid, title := "Thread " ++ strTake tid 8, summary := "",
          message_count := 0, tags := [] } := by
  simp only [saveCheckpointM, hM]

theorem saveCheckpointM_meta_some {α : Type} (m : MemState α)
    (tid : String) (d : α) (uid : Val) (now : Int) (p : ThreadMetadata)
    (hM : lookupD m.metadata tid = some p) :
    (saveCheckpointM m tid d uid now).1.metadata =
      dictInsert m.metadata tid
        { p with
            last_updated := now
            message_count := p.message_count + 1
            user_id := if valTruthy uid && !(valTruthy p.user_id) then uid
                       else p.user_id } := by
  simp only [saveCheckpointM, hM]

theorem runSaves_sim_aux {α : Type} :
    ∀ (ops : List (String × α)) (s : SqliteState α) (m : MemState α)
      (clock : Int),
      (∀ r ∈ s.ckpts, r.checkpoint_id = r.timestamp ∧ r.timestamp < clock) →
      (∀ t, loadCheckpointS s t (Val.str "") false =
        lookupD m.checkpoints t) →
      (∀ t, countRel s m t) →
      (runSavesS s clock ops).2 = true ∧
      (runSavesM m clock ops).2 = true ∧
      (∀ t, loadCheckpointS (runSavesS s clock ops).1 t (Val.str "") false =
        lookupD (runSavesM m clock ops).1.checkpoints t) ∧
      (∀ t, countRel (runSavesS s clock ops).1 (runSavesM m clock ops).1 t) := by
  intro ops
  induction ops with
  | nil =>
    intro s m clock _ hload hcount
    exact ⟨rfl, rfl, hload, hcount⟩
  | cons op ops ih =>
    obtain ⟨tid, d⟩ := op
    intro s m clock hinv hload hcount
    have hfresh : ∀ r ∈ s.ckpts, r.checkpoint_id ≠ clock := by
      intro r hr
      have h := hinv r hr
      omega
    have hts : ∀ r ∈ s.ckpts, r.timestamp < clock :=
      fun r hr => (hinv r hr).2
    obtain ⟨hck, hok⟩ := saveCheckpointS_ckpts s tid d (Val.str "") clock hfresh
    obtain ⟨hmc, hmok⟩ := saveCheckpointM_checkpoints m tid d (Val.str "") clock
    have hinv' : ∀ r ∈ (saveCheckpointS s tid d (Val.str "") clock
        false).1.ckpts,
        r.checkpoint_id = r.timestamp ∧ r.timestamp < clock + 1 := by
      rw [hck]
      intro r hr
      rcases List.mem_append.mp hr with h | h
      · have h2 := hinv r h
        exact ⟨h2.1, by omega⟩
      · rw [List.mem_singleton] at h
        subst h
        refine ⟨rfl, ?_⟩
        show clock < clock + 1
        omega
    have hload' : ∀ t,
        loadCheckpointS (saveCheckpointS s tid d (Val.str "") clock
          false).1 t (Val.str "") false =
        lookupD (saveCheckpointM m tid d (Val.str "") clock).1.checkpoints
          t := by
      intro t
      by_cases hteq : t = tid
      · subst hteq
        rw [loadS_save_self s t d (Val.str "") clock hfresh hts]
        rw [hmc, lookupD_dictInsert_self]
      · rw [loadS_save_other s tid d (Val.str "") clock t hfresh hteq]
        rw [hmc, lookupD_dictInsert_ne _ _ _ _ hteq]
        exact hload t
    have hcount' : ∀ t,
        countRel (saveCheckpointS s tid d (Val.str "") clock false).1
          (saveCheckpointM m tid d (Val.str "") clock).1 t := by
      intro t
      have hc := hcount t
      by_cases hteq : t = tid
      · subst hteq
        unfold countRel at hc ⊢
        cases hS : findMeta s t with
        | some r0 =>
          cases hM : lookupD m.metadata t with
          | some p0 =>
            rw [hS, hM] at hc
            have hc' : r0.message_count = p0.message_count + 1 := hc
            have h1 : findMeta (saveCheckpointS s t d (Val.str "") clock
                false).1 t = some
                { thread_id := t, user_id := Val.str "", created_at := clock,
                  last_updated := clock, title := "", summary := "",
                  message_count := r0.message_count + 1, tags := [] } := by
              unfold findMeta
              rw [saveCheckpointS_meta s t d (Val.str "") clock r0 hS hfresh]
              exact findMeta_filter_append s.meta t _ rfl
            have h2 : lookupD (saveCheckpointM m t d (Val.str "")
                clock).1.metadata t = some
                { p0 with
                    last_updated := clock
                    message_count := p0.message_count + 1
                    user_id :=
                      if valTruthy (Val.str "") && !(valTruthy p0.user_id)
                      then Val.str "" else p0.user_id } := by
              rw [saveCheckpointM_meta_some m t d (Val.str "") clock p0 hM]
              exact lookupD_dictInsert_self _ _ _
            rw [h1, h2]
            show r0.message_count + 1 = (p0.message_count + 1) + 1
            omega
          | none =>
            rw [hS, hM] at hc
            exact False.elim hc
        | none =>
          cases hM : lookupD m.metadata t with
          | some p0 =>
            rw [hS, hM] at hc
            exact False.elim hc
          | none =>
            have h1 : findMeta (saveCheckpointS s t d (Val.str "") clock
                false).1 t = some
                { thread_id := t, user_id := Val.str "", created_at := clock,
                  last_updated := clock, title := "", summary := "",
                  message_count := 1, tags := [] } := by
              unfold findMeta
              rw [saveCheckpointS_meta_none s t d (Val.str "") clock hS hfresh]
              exact findMeta_filter_append s.meta t _ rfl
            have h2 : lookupD (saveCheckpointM m t d (Val.str "")
                clock).1.metadata t = some
                { thread_id := t, created_at := clock, last_updated := clock,
                  user_id := Val.str "", title := "Thread " ++ strTake t 8,
                  summary := "", message_count := 0, tags := [] } := by
              rw [saveCheckpointM_meta_none m t d (Val.str "") clock hM]
              exact lookupD_dictInsert_self _ _ _
            rw [h1, h2]
      · have h1 := findMeta_save_other s tid t d (Val.str "") clock hfresh hteq
        have h2 : lookupD (saveCheckpointM m tid d (Val.str "")
            clock).1.metadata t = lookupD m.metadata t := by
          cases hM : lookupD m.metadata tid with
          | some p0 =>
            rw [saveCheckpointM_meta_some m tid d (Val.str "") clock p0 hM]
            exact lookupD_dictInsert_ne _ _ _ _ hteq
          | none =>
            rw [saveCheckpointM_meta_none m tid d (Val.str "") clock hM]
            exact lookupD_dictInsert_ne _ _ _ _ hteq
        unfold countRel at hc ⊢
        rw [h1, h2]
        exact hc
    have hrec := ih (saveCheckpointS s tid d (Val.str "") clock false).1
      (saveCheckpointM m tid d (Val.str "") clock).1 (clock + 1)
      hinv' hload' hcount'
    refine ⟨?_, ?_, ?_, ?_⟩
    · simp only [runSavesS]
      rw [hok, hrec.1]
      rfl
    · simp only [runSavesM]
      rw [hmok, hrec.2.1]
      rfl
    · intro t
      simp only [runSavesS, runSavesM]
      exact hrec.2.2.1 t
    · intro t
      simp only [runSavesS, runSavesM]
      exact hrec.2.2.2 t

/-- C1 (amended): the two backends are not interchangeable (after a single
identical save the SQLite backend reports `message_count = 1` and the
in-memory backend `0` — see the counterexample).  What does hold: for
every sequence of `save_checkpoint` calls with empty user ids (one clock
tick per call) applied to both fresh backends, every save succeeds in
both, `load_checkpoint` agrees on the latest checkpoint of every thread,
and metadata presence agrees per thread with the SQLite `message_count`
exceeding the in-memory one by exactly one. -/
theorem c1_backend_agreement {α : Type} (ops : List (String × α))
    (tid : String) :
    (runSavesS (emptySqlite α) 0 ops).2 = true ∧
    (runSavesM (emptyMem α) 0 ops).2 = true ∧
    loadCheckpointS (runSavesS (emptySqlite α) 0 ops).1 tid (Val.str "")
      false = lookupD (runSavesM (emptyMem α) 0 ops).1.checkpoints tid ∧
    countRel (runSavesS (emptySqlite α) 0 ops).1
      (runSavesM (emptyMem α) 0 ops).1 tid := by
  have h := runSaves_sim_aux ops (emptySqlite α) (emptyMem α) 0
    (by intro r hr; cases hr) (by intro t; rfl) (by intro t; trivial)
  exact ⟨h.1, h.2.1, h.2.2.1 tid, h.2.2.2 tid⟩

end LearnSnowflake
